import Mathlib

/-!
Verification of the church-attendance application core: the spreadsheet
read/update adapter (functions/index.js: getAttendanceDataFromSheet,
updateAttendanceInSheet), the client view model (src/App.tsx:
updateAttendanceRecordsForDate, handleDateChange, handleAttendanceChange,
formatDateForDisplay, fetchAttendanceData, saveAttendanceData) and the
authorization gate (src/auth-config.ts: getAuthorizedEmails,
removeAuthorizedEmail; src/components/UserManagement.tsx: handleRemoveEmail).

Spreadsheet cells are JavaScript values that are either strings or booleans;
we model them by `CellVal`.  JavaScript strict equality (`===`) between such
values is `jsEq`.  JavaScript objects used as string-keyed maps are modelled
by association lists with `objInsert` (assignment: overwrite the existing
key in place, else append) and `alookup` (property read).
-/

set_option autoImplicit false

namespace ChurchAttendance

universe u

variable {α : Type u}

/-- A spreadsheet cell value as delivered by the Sheets API / JSON: either a
string or a boolean. -/
inductive CellVal where
  | str (s : String)
  | bool (b : Bool)
  deriving DecidableEq, Repr

/-- A sheet is the `values` array: a list of rows, each a list of cells.
Rows may have different lengths (trailing blanks are absent). -/
abbrev Sheet := List (List CellVal)

/-- JavaScript strict equality `===` restricted to cell values: equal only
when of the same type and equal as values (no coercion). -/
def jsEq : CellVal → CellVal → Bool
  | .str s, .str t => s == t
  | .bool a, .bool b => a == b
  | _, _ => false

/-- `===` on possibly-absent cells: `row[0] === name` where either side may be
`undefined`; `undefined === undefined` is `true` in JavaScript. -/
def optJsEq : Option CellVal → Option CellVal → Bool
  | some a, some b => jsEq a b
  | none, none => true
  | _, _ => false

/-- The cell-to-boolean conversion in getAttendanceDataFromSheet
(functions/index.js line 72): `value === "TRUE" || value === "true" ||
value === true`; the cell may be absent (`undefined`), which yields false. -/
def cellIsTrue : Option CellVal → Bool
  | some (.str s) => s == "TRUE" || s == "true"
  | some (.bool b) => b
  | none => false

/-- JavaScript property-key coercion `String(v)` applied to a cell value used
as an object key (`attendance[date] = ...`). -/
def cellKey : CellVal → String
  | .str s => s
  | .bool b => if b then "true" else "false"

/-- Object property read `o[k]` on a string-keyed map modelled as an
association list whose keys are unique. -/
def alookup (k : String) : List (String × Bool) → Option Bool
  | [] => none
  | p :: rest => if p.1 = k then some p.2 else alookup k rest

/-- Object property assignment `o[k] = v`: overwrite the value at an existing
key in place, otherwise append the new key. -/
def objInsert (k : String) (v : Bool) : List (String × Bool) → List (String × Bool)
  | [] => [(k, v)]
  | p :: rest => if p.1 = k then (k, v) :: rest else p :: objInsert k v rest

/-- In-place mutation of a list element, `l[i] = f(l[i])`; out of range it is
a no-op (the claims only concern in-range indices). -/
def modifyAt (i : Nat) (f : α → α) : List α → List α
  | [] => []
  | x :: xs =>
    match i with
    | 0 => f x :: xs
    | n + 1 => x :: modifyAt n f xs

/-- Pair each element with its index, starting at `n` (models
`forEach((x, index) => ...)`). -/
def withIdx (n : Nat) : List α → List (Nat × α)
  | [] => []
  | x :: xs => (n, x) :: withIdx (n + 1) xs

/-- `Array.prototype.findIndex`, returning `none` in place of `-1`. -/
def findIdxOpt (p : α → Bool) : List α → Option Nat
  | [] => none
  | x :: xs => if p x then some 0 else (findIdxOpt p xs).map (· + 1)

/-- Remove the first element satisfying `p` (Firestore `deleteDoc` of
`querySnapshot.docs[0]`). -/
def eraseFirstMatch (p : α → Bool) : List α → List α
  | [] => []
  | x :: xs => if p x then xs else x :: eraseFirstMatch p xs

/-! ### Helper lemmas -/

@[simp] theorem jsEq_refl (c : CellVal) : jsEq c c = true := by
  cases c <;> simp [jsEq]

@[simp] theorem optJsEq_refl (o : Option CellVal) : optJsEq o o = true := by
  cases o <;> simp [optJsEq]

@[simp] theorem alookup_objInsert_self (k : String) (v : Bool)
    (l : List (String × Bool)) : alookup k (objInsert k v l) = some v := by
  induction l with
  | nil => simp [objInsert, alookup]
  | cons p rest ih =>
    by_cases h : p.1 = k
    · simp [objInsert, h, alookup]
    · simp [objInsert, h, alookup, ih]

theorem alookup_objInsert_ne (k k' : String) (v : Bool)
    (l : List (String × Bool)) (h : k' ≠ k) :
    alookup k' (objInsert k v l) = alookup k' l := by
  have hne : ¬ k = k' := fun h' => h h'.symm
  induction l with
  | nil => simp [objInsert, alookup, hne]
  | cons p rest ih =>
    by_cases hp : p.1 = k
    · subst hp
      simp [objInsert, alookup, hne]
    · simp only [objInsert, if_neg hp, alookup]
      by_cases hk' : p.1 = k'
      · simp [hk']
      · simp [hk', ih]

theorem objInsert_idem (k : String) (v : Bool) (l : List (String × Bool)) :
    objInsert k v (objInsert k v l) = objInsert k v l := by
  induction l with
  | nil => simp [objInsert]
  | cons p rest ih =>
    by_cases h : p.1 = k
    · simp [objInsert, h]
    · simp [objInsert, h, ih]

@[simp] theorem modifyAt_length (i : Nat) (f : α → α) (l : List α) :
    (modifyAt i f l).length = l.length := by
  induction l generalizing i with
  | nil => simp [modifyAt]
  | cons x xs ih =>
    cases i with
    | zero => rfl
    | succ n => simp [modifyAt, ih]

theorem modifyAt_getElem?_self (i : Nat) (f : α → α) (l : List α) :
    (modifyAt i f l)[i]? = l[i]?.map f := by
  induction l generalizing i with
  | nil => simp [modifyAt]
  | cons x xs ih =>
    cases i with
    | zero => simp [modifyAt]
    | succ n => simpa [modifyAt] using ih n

theorem modifyAt_getElem?_ne (i j : Nat) (f : α → α) (l : List α)
    (h : j ≠ i) : (modifyAt i f l)[j]? = l[j]? := by
  induction l generalizing i j with
  | nil => simp [modifyAt]
  | cons x xs ih =>
    cases i with
    | zero =>
      cases j with
      | zero => exact absurd rfl h
      | succ m => simp [modifyAt]
    | succ n =>
      cases j with
      | zero => simp [modifyAt]
      | succ m =>
        have : m ≠ n := fun hc => h (by simp [hc])
        simpa [modifyAt] using ih n m this

theorem modifyAt_modifyAt_self (i : Nat) (f : α → α) (l : List α)
    (hf : ∀ a, f (f a) = f a) :
    modifyAt i f (modifyAt i f l) = modifyAt i f l := by
  induction l generalizing i with
  | nil => simp [modifyAt]
  | cons x xs ih =>
    cases i with
    | zero => simp [modifyAt, hf]
    | succ n => simp [modifyAt, ih]

theorem modifyAt_eq_self (i : Nat) (f : α → α) (l : List α) (a : α)
    (hget : l[i]? = some a) (hfix : f a = a) :
    modifyAt i f l = l := by
  induction l generalizing i with
  | nil => simp at hget
  | cons x xs ih =>
    cases i with
    | zero =>
      simp only [List.getElem?_cons_zero, Option.some.injEq] at hget
      subst hget
      simp [modifyAt, hfix]
    | succ n =>
      simp only [List.getElem?_cons_succ] at hget
      simp [modifyAt, ih n hget]

theorem findIdxOpt_spec (p : α → Bool) (l : List α) (i : Nat)
    (h : findIdxOpt p l = some i) :
    ∃ hi : i < l.length, p l[i] = true ∧
      ∀ j (hj : j < i), p (l.get ⟨j, Nat.lt_trans hj hi⟩) = false := by
  induction l generalizing i with
  | nil => simp [findIdxOpt] at h
  | cons x xs ih =>
    by_cases hx : p x = true
    · simp [findIdxOpt, hx] at h
      subst h
      exact ⟨Nat.succ_pos _, by simpa using hx, by intro j hj; omega⟩
    · simp only [findIdxOpt, Bool.not_eq_true] at hx
      simp only [findIdxOpt, hx, if_neg] at h
      simp only [Bool.false_eq_true, if_false, Option.map_eq_some'] at h
      obtain ⟨n, hn, rfl⟩ := h
      obtain ⟨hlt, hhit, hmiss⟩ := ih n hn
      refine ⟨Nat.succ_lt_succ hlt, by simpa using hhit, ?_⟩
      intro j hj
      cases j with
      | zero => simpa using hx
      | succ m => simpa using hmiss m (Nat.lt_of_succ_lt_succ hj)

theorem set_getElem?_eq (l : List α) (i : Nat) (a : α) (h : l[i]? = some a) :
    l.set i a = l := by
  induction l generalizing i with
  | nil => simp at h
  | cons x xs ih =>
    cases i with
    | zero => simp_all
    | succ n =>
      simp only [List.getElem?_cons_succ] at h
      simp [ih n h]

theorem foldl_fixed {β : Type} (f : α → β → α) (s : α) (ws : List β)
    (h : ∀ w ∈ ws, f s w = s) : ws.foldl f s = s := by
  induction ws with
  | nil => rfl
  | cons w ws ih =>
    rw [List.foldl_cons, h w (List.mem_cons_self w ws)]
    exact ih fun w' hw' => h w' (List.mem_cons_of_mem _ hw')

theorem withIdx_mem_snd (n : Nat) (l : List α) (p : Nat × α)
    (h : p ∈ withIdx n l) : p.2 ∈ l := by
  induction l generalizing n with
  | nil => simp [withIdx] at h
  | cons x xs ih =>
    simp only [withIdx, List.mem_cons] at h
    rcases h with h | h
    · subst h; simp
    · exact List.mem_cons_of_mem _ (ih (n + 1) h)

/-! ### Roster store adapter (functions/index.js) -/

/-- One entry of the `attendanceData` array produced by
getAttendanceDataFromSheet: `{ name, attendance }` where `name` is `row[0]`
(possibly `undefined` for an empty row) and `attendance` is a string-keyed
object of booleans. -/
structure SPerson where
  name : Option CellVal
  attendance : List (String × Bool)
  deriving DecidableEq, Repr

/-- The `{ dates, attendanceData }` value returned by
getAttendanceDataFromSheet and sent by the getAttendanceData endpoint. -/
structure ServerData where
  dates : List CellVal
  attendanceData : List SPerson
  deriving DecidableEq, Repr

/-- The `attendance` object built for one row:
`dates.forEach((date, index) => { attendance[date] = <cell to bool>(row[index + 1]) })`. -/
def buildAttendance (dates : List CellVal) (row : List CellVal) : List (String × Bool) :=
  (withIdx 0 dates).foldl
    (fun acc p => objInsert (cellKey p.2) (cellIsTrue row[p.1 + 1]?) acc) []

/-- getAttendanceDataFromSheet (functions/index.js lines 43-94) as a function
of the fetched `values` array.  When the range holds no rows the function
logs a warning and returns `{ dates: [], attendanceData: [] }` — a normal
(non-error) result.  The header row's first cell is the name-column label;
the remaining header cells are the date keys. -/
def getAttendanceDataFromSheet : Sheet → ServerData
  | [] => ⟨[], []⟩
  | headerRow :: rest =>
    let dates := headerRow.drop 1
    ⟨dates, rest.map (fun row => ⟨row[0]?, buildAttendance dates row⟩)⟩

/-- One element of the `attendance` array POSTed to the updateAttendance
endpoint: `{ name, present }`. -/
structure UpdateRecord where
  name : Option CellVal
  present : Bool
  deriving DecidableEq, Repr

/-- Which branch of updateAttendanceInSheet produced the `false`/`true`
result; each failure constructor corresponds to a distinct `console.error` /
`console.warn` message in the source (the JavaScript return value itself is a
bare boolean). -/
inductive UpdateStatus where
  /-- `return true` after the batch update. -/
  | updated
  /-- "No data found in sheet to update". -/
  | noData
  /-- "Date '...' not found in spreadsheet headers". -/
  | dateNotFound
  /-- "No valid attendance records to update". -/
  | noRecords
  deriving DecidableEq, Repr

/-- Writing one cell of a row: the Sheets update of `<col><row>` pads a short
row with blank cells up to the target column, then replaces that cell. -/
def setCellInRow (row : List CellVal) (c : Nat) (v : CellVal) : List CellVal :=
  (row ++ List.replicate (c + 1 - row.length) (CellVal.str "")).set c v

/-- Apply one batch-update entry `{ range: <col><rowIdx+1>, values: [[v]] }`
to the sheet. -/
def setCell (sheet : Sheet) (r c : Nat) (v : CellVal) : Sheet :=
  modifyAt r (fun row => setCellInRow row c v) sheet

/-- updateAttendanceInSheet (functions/index.js lines 120-211) as a function
of the current sheet contents, the requested date and the posted records.
Returns the branch taken together with the sheet after the batch update
(unchanged on every failure branch).  The row for a record is located by
`findIndex` over ALL fetched rows — the header row included — and the batch
entries are applied in order (later entries overwrite earlier ones on the
same cell, as in the Sheets batchUpdate API).  The environment-dependent
early exits (missing sheets client / sheet id) are not modelled: they do not
depend on the data. -/
def updateAttendanceInSheet (sheet : Sheet) (date : CellVal)
    (attendanceData : List UpdateRecord) : UpdateStatus × Sheet :=
  match sheet with
  | [] => (.noData, sheet)
  | headerRow :: _ =>
    match findIdxOpt (fun header => jsEq header date) headerRow with
    | none => (.dateNotFound, sheet)
    | some dateColumnIndex =>
      let batchUpdateData :=
        attendanceData.filterMap (fun rcd =>
          (findIdxOpt (fun row => optJsEq row[0]? rcd.name) sheet).map
            (fun rowIndex => (rowIndex, rcd.present)))
      if batchUpdateData.isEmpty then (.noRecords, sheet)
      else
        (.updated,
         batchUpdateData.foldl
           (fun sh w => setCell sh w.1 dateColumnIndex (.bool w.2)) sheet)

/-! ### Client view model (src/App.tsx) -/

/-- `interface AttendanceRecord { name: string; present: boolean }`. -/
structure AttendanceRecord where
  name : String
  present : Bool
  deriving DecidableEq, Repr

/-- `interface AttendanceData { name: string; attendance: { [date: string]: boolean } }`. -/
structure AttendanceData where
  name : String
  attendance : List (String × Bool)
  deriving DecidableEq, Repr

/-- The React state of `App` that the core logic touches. -/
structure ClientState where
  attendanceRecords : List AttendanceRecord
  availableDates : List String
  selectedDate : String
  fullAttendanceData : List AttendanceData
  error : Option String
  authRequired : Bool
  deriving DecidableEq, Repr

/-- updateAttendanceRecordsForDate (src/App.tsx lines 126-136):
`data.map((item) => ({ name: item.name, present: item.attendance[date] || false }))`. -/
def updateAttendanceRecordsForDate (date : String) (data : List AttendanceData) :
    List AttendanceRecord :=
  data.map (fun item => ⟨item.name, (alookup date item.attendance).getD false⟩)

/-- handleDateChange (src/App.tsx lines 166-169). -/
def handleDateChange (date : String) (s : ClientState) : ClientState :=
  { s with
    selectedDate := date
    attendanceRecords := updateAttendanceRecordsForDate date s.fullAttendanceData }

/-- handleAttendanceChange (src/App.tsx lines 139-150): mutate the view entry
at `index`, and — when a date is selected (`selectedDate` truthy) and
`fullAttendanceData[index]` exists — write through to
`fullAttendanceData[index].attendance[selectedDate]`. -/
def handleAttendanceChange (index : Nat) (checked : Bool) (s : ClientState) :
    ClientState :=
  let records := modifyAt index (fun r => { r with present := checked })
    s.attendanceRecords
  let full :=
    if s.selectedDate ≠ "" ∧ index < s.fullAttendanceData.length then
      modifyAt index
        (fun item =>
          { item with attendance := objInsert s.selectedDate checked item.attendance })
        s.fullAttendanceData
    else s.fullAttendanceData
  { s with attendanceRecords := records, fullAttendanceData := full }

/-- Outcome of the GET to the data endpoint, as seen by fetchAttendanceData:
either a non-2xx status, or a 2xx body that fails the shape check, or a
well-shaped `{ dates, attendanceData }` body. -/
inductive FetchOutcome where
  | httpError (status : Nat)
  | invalidFormat
  | success (dates : List String) (data : List AttendanceData)
  deriving DecidableEq, Repr

/-- fetchAttendanceData (src/App.tsx lines 60-123) as a state transformer
given the network outcome.  On any thrown error the previously stored data is
left untouched and `error` is set; on a well-shaped response the full data
and date list are replaced wholesale, and only when the date list is
non-empty are the selected date and the per-date view recomputed. -/
def fetchAttendanceData (out : FetchOutcome) (s : ClientState) : ClientState :=
  match out with
  | .httpError status =>
    if status = 403 then
      { s with authRequired := true
               error := some "Failed to load attendance data: Access to this function requires authentication. Please configure Firebase function permissions." }
    else
      { s with error := some "Failed to load attendance data: HTTP error!" }
  | .invalidFormat =>
    { s with error := some "Failed to load attendance data: Invalid data format received from server" }
  | .success dates data =>
    let s1 := { s with error := none, fullAttendanceData := data,
                       availableDates := dates }
    match dates with
    | [] => s1
    | initialDate :: _ =>
      { s1 with
        selectedDate := initialDate
        attendanceRecords := updateAttendanceRecordsForDate initialDate data }

/-- The records the client sends on save for selected date `d`
(saveAttendanceData posts `{ date: selectedDate, attendance: attendanceRecords }`):
after a fresh load the view is the projection of the fetched data at `d`.
A date cell value used as an object key on the client coerces to the same
string `cellKey d` that keyed the attendance object on the server. -/
def clientRecordsFor (d : CellVal) (data : List SPerson) : List UpdateRecord :=
  data.map (fun p => ⟨p.name, (alookup (cellKey d) p.attendance).getD false⟩)

/-- Full-load-then-immediate-save round trip: read the sheet, derive the view
for the default date `dates[0]`, and post it back unchanged.  `none` when the
date list is empty (the Save button is disabled while `selectedDate` is the
empty string). -/
def noopSave (sheet : Sheet) : Option (UpdateStatus × Sheet) :=
  let sd := getAttendanceDataFromSheet sheet
  match sd.dates with
  | [] => none
  | d :: _ => some (updateAttendanceInSheet sheet d (clientRecordsFor d sd.attendanceData))

/-! ### Authorization gate (src/auth-config.ts, src/components/UserManagement.tsx) -/

/-- The module-level cache of src/auth-config.ts:
`cachedAuthorizedEmails` and `lastFetchTime`. -/
structure AuthCache where
  cachedAuthorizedEmails : List String
  lastFetchTime : Nat
  deriving DecidableEq, Repr

/-- `CACHE_DURATION = 1000 * 60 * 10` (10 minutes, in milliseconds). -/
def CACHE_DURATION : Nat := 1000 * 60 * 10

/-- Outcome of `getDocs(usersCollection)`: the `email` fields of the stored
documents, or a thrown read error. -/
inductive EmailsReadOutcome where
  | ok (docEmails : List String)
  | err
  deriving DecidableEq, Repr

/-- getAuthorizedEmails (src/auth-config.ts lines 260-282) as a function of
`Date.now()`, the Firestore read outcome and the cache state; returns the
resolved value together with the cache state afterwards.  A non-empty cache
younger than `CACHE_DURATION` is returned without reading; otherwise the
store is read, and a thrown read error resolves to `[]` (the `catch` branch)
while leaving the cache variables untouched. -/
def getAuthorizedEmails (now : Nat) (read : EmailsReadOutcome)
    (st : AuthCache) : List String × AuthCache :=
  if st.cachedAuthorizedEmails.length > 0 ∧ now - st.lastFetchTime < CACHE_DURATION then
    (st.cachedAuthorizedEmails, st)
  else
    match read with
    | .ok docEmails =>
      let emails := docEmails.map String.toLower
      (emails, ⟨emails, now⟩)
    | .err => ([], st)

/-- removeAuthorizedEmail (src/auth-config.ts lines 335-359) acting on the
stored email documents (each document reduced to its `email` field): query
for documents whose `email` equals the lowercased argument; if none, return
false, otherwise delete the first matching document and return true. -/
def removeAuthorizedEmail (email : String) (db : List String) :
    Bool × List String :=
  let querySnapshot := db.filter (fun doc => doc == email.toLower)
  if querySnapshot.isEmpty then (false, db)
  else (true, eraseFirstMatch (fun doc => doc == email.toLower) db)

/-- handleRemoveEmail (src/components/UserManagement.tsx lines 84-109), the
authorization gate's remove operation: a request to remove the acting user's
own email is rejected up front (an error message is shown and Firestore is
never touched); otherwise the removal is delegated to removeAuthorizedEmail
and its success flag is reported. -/
def handleRemoveEmail (email currentUserEmail : String) (db : List String) :
    Bool × List String :=
  if email == currentUserEmail then (false, db)
  else removeAuthorizedEmail email db

/-! ### Date display formatting (src/App.tsx lines 154-164)

`formatDateForDisplay` parses with date-fns `parse(dateString, "M/d/yyyy",
new Date())` and re-renders with `format(date, "MMMM d, yyyy")`; an
unparseable string makes `format` throw on the invalid date and the catch
branch returns the original string.  The date-fns behaviour is modelled here:
`M` and `d` match one or two digits, `yyyy` matches one to four digits
(pattern `\d{1,4}`) and rejects year 0, the three parts are separated by `/`
with nothing left over, and the parts must form a real calendar date. -/

/-- C1: for every date `d` in the loaded date list, selecting `d` via
handleDateChange recomputes the per-date view: it has exactly one entry per
person of the full data, in the same order, each entry keeping the person's
name, with `present` equal to the person's `attendance[d]` when that key is
present and `false` when it is absent. -/
theorem handleDateChange_view (s : ClientState) (d : String)
    (hd : d ∈ s.availableDates) :
    (handleDateChange d s).selectedDate = d ∧
    (handleDateChange d s).attendanceRecords.length = s.fullAttendanceData.length ∧
    ∀ (p : Nat) (item : AttendanceData), s.fullAttendanceData[p]? = some item →
      ((handleDateChange d s).attendanceRecords[p]? =
        some ⟨item.name, (alookup d item.attendance).getD false⟩ ∧
       (∀ b, alookup d item.attendance = some b →
         (handleDateChange d s).attendanceRecords[p]? = some ⟨item.name, b⟩) ∧
       (alookup d item.attendance = none →
         (handleDateChange d s).attendanceRecords[p]? = some ⟨item.name, false⟩)) := by
  refine ⟨rfl, by simp [handleDateChange, updateAttendanceRecordsForDate], ?_⟩
  intro p item hp
  have hbase : (handleDateChange d s).attendanceRecords[p]? =
      some ⟨item.name, (alookup d item.attendance).getD false⟩ := by
    simp [handleDateChange, updateAttendanceRecordsForDate, hp]
  refine ⟨hbase, ?_, ?_⟩
  · intro b hb
    rw [hbase, hb]
    rfl
  · intro hb
    rw [hbase, hb]
    rfl

/-- Example client state for exercising handleDateChange. -/
def exStateC1 : ClientState :=
  { attendanceRecords := []
    availableDates := ["7/20/2025", "7/13/2025"]
    selectedDate := ""
    fullAttendanceData := [⟨"Smith, Jane", [("7/20/2025", false)]⟩]
    error := none
    authRequired := false }

/-- C1 witness: selecting a date with no stored key for the person yields
`present = false`, and the key "7/20/2025" stored as `false` is read back. -/
theorem handleDateChange_view_witness :
    (handleDateChange "7/13/2025" exStateC1).attendanceRecords[0]? =
      some ⟨"Smith, Jane", false⟩ ∧
    (handleDateChange "7/20/2025" exStateC1).attendanceRecords[0]? =
      some ⟨"Smith, Jane", false⟩ := by
  have h1 := handleDateChange_view exStateC1 "7/13/2025" (by decide)
  have h2 := handleDateChange_view exStateC1 "7/20/2025" (by decide)
  exact ⟨(h1.2.2 0 ⟨"Smith, Jane", [("7/20/2025", false)]⟩ (by decide)).2.2 (by decide),
         (h2.2.2 0 ⟨"Smith, Jane", [("7/20/2025", false)]⟩ (by decide)).2.1 false (by decide)⟩

/-- handleAttendanceChange in the fully-guarded case (a date is selected and
the indexed person exists): both state pieces are updated in place. -/
theorem handleAttendanceChange_eq (s : ClientState) (i : Nat) (v : Bool)
    (him : i < s.fullAttendanceData.length) (hsel : s.selectedDate ≠ "") :
    handleAttendanceChange i v s =
      { s with
        attendanceRecords :=
          modifyAt i (fun r => { r with present := v }) s.attendanceRecords
        fullAttendanceData :=
          modifyAt i
            (fun item =>
              { item with attendance := objInsert s.selectedDate v item.attendance })
            s.fullAttendanceData } := by
  simp [handleAttendanceChange, hsel, him]

/-- C2: with a date selected and `i` valid, `toggle(i, v)`
(handleAttendanceChange) sets the view entry at `i` to `present = v` (name
kept), writes `v` through to `fullAttendanceData[i].attendance[selectedDate]`
(name kept), leaves every other view entry, every other person, and every
other date key of person `i` unchanged, is idempotent, and a re-selection of
the edited date reflects the unsaved edit. -/
theorem handleAttendanceChange_spec (s : ClientState) (i : Nat) (v : Bool)
    (hiv : i < s.attendanceRecords.length)
    (him : i < s.fullAttendanceData.length)
    (hsel : s.selectedDate ≠ "") :
    (handleAttendanceChange i v s).attendanceRecords[i]? =
      (s.attendanceRecords[i]?).map (fun r => ⟨r.name, v⟩) ∧
    (∀ j, j ≠ i →
      (handleAttendanceChange i v s).attendanceRecords[j]? = s.attendanceRecords[j]?) ∧
    ((handleAttendanceChange i v s).fullAttendanceData[i]?).map
        (fun item => alookup s.selectedDate item.attendance) = some (some v) ∧
    ((handleAttendanceChange i v s).fullAttendanceData[i]?).map AttendanceData.name =
      (s.fullAttendanceData[i]?).map AttendanceData.name ∧
    (∀ d, d ≠ s.selectedDate →
      ((handleAttendanceChange i v s).fullAttendanceData[i]?).map
          (fun item => alookup d item.attendance) =
        (s.fullAttendanceData[i]?).map (fun item => alookup d item.attendance)) ∧
    (∀ j, j ≠ i →
      (handleAttendanceChange i v s).fullAttendanceData[j]? = s.fullAttendanceData[j]?) ∧
    handleAttendanceChange i v (handleAttendanceChange i v s) =
      handleAttendanceChange i v s ∧
    ((handleDateChange s.selectedDate (handleAttendanceChange i v s)).attendanceRecords[i]?).map
        AttendanceRecord.present = some v := by
  have heq := handleAttendanceChange_eq s i v him hsel
  have hfi : s.fullAttendanceData[i]? = some s.fullAttendanceData[i] :=
    List.getElem?_eq_getElem him
  have hfull : (handleAttendanceChange i v s).fullAttendanceData[i]? =
      some { s.fullAttendanceData[i] with
             attendance := objInsert s.selectedDate v s.fullAttendanceData[i].attendance } := by
    rw [heq]
    simp [modifyAt_getElem?_self, hfi]
  refine ⟨?_, ?_, ?_, ?_, ?_, ?_, ?_, ?_⟩
  · rw [heq]
    simp [modifyAt_getElem?_self]
  · intro j hj
    rw [heq]
    simpa using modifyAt_getElem?_ne i j _ s.attendanceRecords hj
  · rw [hfull]
    simp
  · rw [hfull, hfi]
    simp
  · intro d hd
    rw [hfull, hfi]
    simp [alookup_objInsert_ne _ _ _ _ hd]
  · intro j hj
    rw [heq]
    simpa using modifyAt_getElem?_ne i j _ s.fullAttendanceData hj
  · have him' : i < (handleAttendanceChange i v s).fullAttendanceData.length := by
      rw [heq]
      simpa using him
    have hsel' : (handleAttendanceChange i v s).selectedDate ≠ "" := by
      rw [heq]
      exact hsel
    rw [handleAttendanceChange_eq _ i v him' hsel', heq]
    simp only []
    congr 1
    · exact modifyAt_modifyAt_self _ _ _ (fun r => rfl)
    · exact modifyAt_modifyAt_self _ _ _
        (fun item => by simp [objInsert_idem])
  · have : (handleDateChange s.selectedDate (handleAttendanceChange i v s)).attendanceRecords[i]? =
        ((handleAttendanceChange i v s).fullAttendanceData[i]?).map
          (fun item => ⟨item.name, (alookup s.selectedDate item.attendance).getD false⟩) := by
      simp [handleDateChange, updateAttendanceRecordsForDate]
    rw [this, hfull]
    simp

/-- Example client state for exercising handleAttendanceChange. -/
def exStateC2 : ClientState :=
  { attendanceRecords := [⟨"Smith, Jane", false⟩]
    availableDates := ["7/20/2025"]
    selectedDate := "7/20/2025"
    fullAttendanceData := [⟨"Smith, Jane", [("7/20/2025", false)]⟩]
    error := none
    authRequired := false }

/-- C2 witness: toggling entry 0 to `true` writes through to the matrix and
a repeated toggle changes nothing further. -/
theorem handleAttendanceChange_spec_witness :
    ((handleAttendanceChange 0 true exStateC2).fullAttendanceData[0]?).map
        (fun item => alookup exStateC2.selectedDate item.attendance) = some (some true) ∧
    handleAttendanceChange 0 true (handleAttendanceChange 0 true exStateC2) =
      handleAttendanceChange 0 true exStateC2 := by
  have h := handleAttendanceChange_spec exStateC2 0 true (by decide) (by decide) (by decide)
  exact ⟨h.2.2.1, h.2.2.2.2.2.2.1⟩

/-- C4: an update request whose date matches no header cell (header lookup by
JavaScript strict equality — exact string match, no normalization: on strings
`jsEq` is plain string equality) takes the "Date not found in spreadsheet
headers" branch and performs zero writes: the sheet is returned exactly as it
was. -/
theorem updateAttendanceInSheet_dateNotFound (headerRow : List CellVal)
    (rest : Sheet) (date : CellVal) (records : List UpdateRecord)
    (h : findIdxOpt (fun header => jsEq header date) headerRow = none) :
    updateAttendanceInSheet (headerRow :: rest) date records =
      (.dateNotFound, headerRow :: rest) ∧
    (∀ s t : String, jsEq (.str s) (.str t) = true ↔ s = t) := by
  constructor
  · simp [updateAttendanceInSheet, h]
  · intro s t
    simp [jsEq]

/-- C4 witness: a concrete sheet whose header holds only "7/20/2025" rejects
an update for "7/13/2025" untouched. -/
theorem updateAttendanceInSheet_dateNotFound_witness :
    updateAttendanceInSheet
        [[CellVal.str "Name", CellVal.str "7/20/2025"],
         [CellVal.str "Alice", CellVal.str "TRUE"]]
        (CellVal.str "7/13/2025")
        [⟨some (CellVal.str "Alice"), true⟩] =
      (.dateNotFound,
       [[CellVal.str "Name", CellVal.str "7/20/2025"],
        [CellVal.str "Alice", CellVal.str "TRUE"]]) :=
  (updateAttendanceInSheet_dateNotFound
    [CellVal.str "Name", CellVal.str "7/20/2025"]
    [[CellVal.str "Alice", CellVal.str "TRUE"]]
    (CellVal.str "7/13/2025")
    [⟨some (CellVal.str "Alice"), true⟩]
    (by decide)).1

/-- C10: the row located for a record is found by `findIndex` over the whole
fetched table, header row included; a record whose name equals the header's
name-column label "Name" is matched to row 0, so the batch update overwrites
the date's header cell (here it becomes the boolean `true`) instead of
skipping the record. -/
theorem updateAttendanceInSheet_header_row_clobber :
    findIdxOpt (fun row => optJsEq row[0]? (some (CellVal.str "Name")))
        [[CellVal.str "Name", CellVal.str "7/20/2025"],
         [CellVal.str "Alice", CellVal.str "TRUE"]] = some 0 ∧
    updateAttendanceInSheet
        [[CellVal.str "Name", CellVal.str "7/20/2025"],
         [CellVal.str "Alice", CellVal.str "TRUE"]]
        (CellVal.str "7/20/2025")
        [⟨some (CellVal.str "Name"), true⟩] =
      (.updated,
       [[CellVal.str "Name", CellVal.bool true],
        [CellVal.str "Alice", CellVal.str "TRUE"]]) := by
  constructor
  · decide
  · decide

/-- C6 counterexample: the claim says any case-insensitive match of "true"
(e.g. "True") counts as present, but the code compares only with the two
exact strings "TRUE" and "true" (and the boolean literal `true`): a cell
holding "True" is read as absent. -/
theorem cellIsTrue_not_case_insensitive :
    cellIsTrue (some (CellVal.str "True")) = false ∧
    (getAttendanceDataFromSheet
        [[CellVal.str "Name", CellVal.str "7/20/2025"],
         [CellVal.str "Alice", CellVal.str "True"]]).attendanceData =
      [⟨some (CellVal.str "Alice"), [("7/20/2025", false)]⟩] := by
  constructor
  · decide
  · decide

/-- C6 (amended): a cell read by the fetch counts as present exactly when its
value is the boolean literal `true`, the string "TRUE" or the string "true";
every other value — mixed-case spellings such as "True" included — and every
absent cell yields absent. -/
theorem cellIsTrue_iff (v : Option CellVal) :
    cellIsTrue v = true ↔
      v = some (CellVal.bool true) ∨ v = some (CellVal.str "TRUE") ∨
        v = some (CellVal.str "true") := by
  cases v with
  | none => simp [cellIsTrue]
  | some c =>
    cases c with
    | str s => simp [cellIsTrue]
    | bool b => cases b <;> simp [cellIsTrue]

/-- C7 counterexample: with a non-empty cache older than the TTL, a failed
read resolves to the empty list — not the stale cached set — and on a
first-ever load (empty cache) a failed read also resolves to the empty list,
indistinguishable from a legitimately empty user list. -/
theorem getAuthorizedEmails_stale_cache_not_returned :
    (getAuthorizedEmails 600000 .err ⟨["a@b.com"], 0⟩).1 = [] ∧
    (getAuthorizedEmails 600000 .err ⟨["a@b.com"], 0⟩).1 ≠ ["a@b.com"] ∧
    (getAuthorizedEmails 0 .err ⟨[], 0⟩).1 = ([] : List String) := by
  refine ⟨by decide, by decide, by decide⟩

/-- C7 (amended): a failed read never mutates the cache variables, but its
resolved value is the stale cached set only when that cache is non-empty and
younger than the TTL (in which case the store is not read at all); in every
other case — stale cache or first-ever load alike — a failed read resolves to
the empty list, with no error value distinguishable from "zero users". -/
theorem getAuthorizedEmails_failed_read (now : Nat) (st : AuthCache) :
    (getAuthorizedEmails now .err st).2 = st ∧
    (st.cachedAuthorizedEmails.length > 0 ∧ now - st.lastFetchTime < CACHE_DURATION →
      (getAuthorizedEmails now .err st).1 = st.cachedAuthorizedEmails) ∧
    (¬ (st.cachedAuthorizedEmails.length > 0 ∧ now - st.lastFetchTime < CACHE_DURATION) →
      (getAuthorizedEmails now .err st).1 = []) := by
  by_cases h : st.cachedAuthorizedEmails.length > 0 ∧ now - st.lastFetchTime < CACHE_DURATION
  · refine ⟨by simp [getAuthorizedEmails, h], fun _ => by simp [getAuthorizedEmails, h],
      fun hn => absurd h hn⟩
  · refine ⟨by simp [getAuthorizedEmails, h], fun hp => absurd hp h,
      fun _ => by simp [getAuthorizedEmails, h]⟩

/-- C7 witness: concrete expired-cache state under a failed read. -/
theorem getAuthorizedEmails_failed_read_witness :
    (getAuthorizedEmails 600000 .err ⟨["a@b.com"], 0⟩).2 = ⟨["a@b.com"], 0⟩ ∧
    (getAuthorizedEmails 600000 .err ⟨["a@b.com"], 0⟩).1 = [] := by
  have h := getAuthorizedEmails_failed_read 600000 ⟨["a@b.com"], 0⟩
  exact ⟨h.1, h.2.2 (by decide)⟩

/-- C8: the gate's remove operation rejects removing the acting user's own
email for every whitelist contents: it reports failure and the stored
documents are untouched (Firestore is never queried in this branch). -/
theorem handleRemoveEmail_self (db : List String) (email currentUserEmail : String)
    (h : email = currentUserEmail) :
    handleRemoveEmail email currentUserEmail db = (false, db) := by
  subst h
  simp [handleRemoveEmail]

/-- C8 witness. -/
theorem handleRemoveEmail_self_witness :
    handleRemoveEmail "user@example.com" "user@example.com"
        ["user@example.com", "other@example.com"] =
      (false, ["user@example.com", "other@example.com"]) :=
  handleRemoveEmail_self ["user@example.com", "other@example.com"]
    "user@example.com" "user@example.com" rfl

/-- Example prior client state holding loaded data, for the empty-read
scenario. -/
def exStateC5 : ClientState :=
  { attendanceRecords := [⟨"Smith, Jane", true⟩]
    availableDates := ["7/20/2025"]
    selectedDate := "7/20/2025"
    fullAttendanceData := [⟨"Smith, Jane", [("7/20/2025", true)]⟩]
    error := none
    authRequired := false }

/-- C5 counterexample: a zero-row backing read does NOT fail — the server
returns a successful empty `{ dates: [], attendanceData: [] }` — and on that
response the client replaces (clears) the previously loaded matrix and
surfaces no error state, contrary to the claim that the result is a failure
and the prior matrix is preserved. -/
theorem emptyRead_clears_prior_matrix :
    getAttendanceDataFromSheet ([] : Sheet) = ⟨[], []⟩ ∧
    (fetchAttendanceData (.success [] []) exStateC5).fullAttendanceData = [] ∧
    (fetchAttendanceData (.success [] []) exStateC5).fullAttendanceData ≠
      exStateC5.fullAttendanceData ∧
    (fetchAttendanceData (.success [] []) exStateC5).error = none := by
  refine ⟨rfl, rfl, by decide, rfl⟩

/-- C5 (amended): a zero-row backing read yields a successful empty result;
the client accepts it, replaces the previously loaded matrix and date list
with empty ones, and surfaces no error (the selected date and displayed view
are left as they were).  Only a genuinely failed fetch (a thrown/HTTP error)
preserves the prior matrix and surfaces an error state. -/
theorem emptyRead_behavior (s : ClientState) (status : Nat) :
    getAttendanceDataFromSheet ([] : Sheet) = ⟨[], []⟩ ∧
    fetchAttendanceData (.success [] []) s =
      { s with fullAttendanceData := [], availableDates := [], error := none } ∧
    (fetchAttendanceData (.httpError status) s).fullAttendanceData =
      s.fullAttendanceData ∧
    (fetchAttendanceData (.httpError status) s).error ≠ none := by
  refine ⟨rfl, rfl, ?_, ?_⟩
  · by_cases h : status = 403 <;> simp [fetchAttendanceData, h]
  · by_cases h : status = 403 <;> simp [fetchAttendanceData, h]

/-- C3 counterexample: a full load then an immediate save with no toggles
does alter a backing-store cell: a data cell holding the string "TRUE" is
read as present and written back as the boolean literal `true`, so the cell's
stored value changes. -/
theorem noopSave_changes_cell :
    noopSave [[CellVal.str "Name", CellVal.str "7/20/2025"],
              [CellVal.str "Alice", CellVal.str "TRUE"]] =
      some (.updated,
        [[CellVal.str "Name", CellVal.str "7/20/2025"],
         [CellVal.str "Alice", CellVal.bool true]]) ∧
    ([[CellVal.str "Name", CellVal.str "7/20/2025"],
      [CellVal.str "Alice", CellVal.bool true]] : Sheet) ≠
      [[CellVal.str "Name", CellVal.str "7/20/2025"],
       [CellVal.str "Alice", CellVal.str "TRUE"]] := by
  refine ⟨by decide, by decide⟩

/-- Inserting keys different from `k` does not change the value at `k`. -/
theorem alookup_foldl_objInsert (f : Nat × CellVal → Bool)
    (ps : List (Nat × CellVal)) (acc : List (String × Bool)) (k : String)
    (h : ∀ p ∈ ps, cellKey p.2 ≠ k) :
    alookup k (ps.foldl (fun a p => objInsert (cellKey p.2) (f p) a) acc) =
      alookup k acc := by
  induction ps generalizing acc with
  | nil => rfl
  | cons p ps ih =>
    rw [List.foldl_cons, ih _ (fun q hq => h q (List.mem_cons_of_mem _ hq))]
    exact alookup_objInsert_ne _ _ _ _ (h p (List.mem_cons_self p ps)).symm

/-- The attendance object built for a row maps the first date key to the
parsed value of the row's cell in column 1, provided no later date column
shares that key. -/
theorem alookup_buildAttendance_head (d : CellVal) (ds : List CellVal)
    (row : List CellVal) (h : ∀ d' ∈ ds, cellKey d' ≠ cellKey d) :
    alookup (cellKey d) (buildAttendance (d :: ds) row) =
      some (cellIsTrue row[1]?) := by
  unfold buildAttendance
  simp only [withIdx, List.foldl_cons]
  rw [alookup_foldl_objInsert _ _ _ _
    (fun p hp => h p.2 (withIdx_mem_snd 1 ds p hp))]
  simp

/-- C3 (amended): a full load followed immediately by a save with no toggles
leaves every backing-store cell unchanged PROVIDED the table is regular: the
name-column label differs from the first date header, no later date column
duplicates the first date's key, the first cells of all rows (header
included) are pairwise distinct, and every data row's cell in the first date
column already holds a boolean literal.  (Without these provisos the save
rewrites cells — see the counterexample: string-valued cells such as "TRUE"
are re-written as booleans.) -/
theorem noopSave_preserves_cells (c0 d : CellVal) (hrest : List CellVal)
    (rows : List (List CellVal))
    (hne : jsEq c0 d = false)
    (hkeys : ∀ d' ∈ hrest, cellKey d' ≠ cellKey d)
    (hbool : ∀ row ∈ rows, ∃ b : Bool, row[1]? = some (CellVal.bool b))
    (hdistinct : List.Pairwise (fun r1 r2 => optJsEq r1[0]? r2[0]? = false)
      ((c0 :: d :: hrest) :: rows)) :
    (noopSave ((c0 :: d :: hrest) :: rows)).map Prod.snd =
      some ((c0 :: d :: hrest) :: rows) := by
  have hrec : clientRecordsFor d
      (getAttendanceDataFromSheet ((c0 :: d :: hrest) :: rows)).attendanceData =
      rows.map (fun row => (⟨row[0]?, cellIsTrue row[1]?⟩ : UpdateRecord)) := by
    show (rows.map (fun row =>
        (⟨row[0]?, buildAttendance (d :: hrest) row⟩ : SPerson))).map
        (fun p => (⟨p.name, (alookup (cellKey d) p.attendance).getD false⟩ : UpdateRecord)) = _
    rw [List.map_map]
    apply List.map_congr_left
    intro row hrow
    simp [Function.comp, alookup_buildAttendance_head d hrest row hkeys]
  have hnoop : noopSave ((c0 :: d :: hrest) :: rows) =
      some (updateAttendanceInSheet ((c0 :: d :: hrest) :: rows) d
        (rows.map (fun row => (⟨row[0]?, cellIsTrue row[1]?⟩ : UpdateRecord)))) := by
    rw [show noopSave ((c0 :: d :: hrest) :: rows) =
        some (updateAttendanceInSheet ((c0 :: d :: hrest) :: rows) d
          (clientRecordsFor d
            (getAttendanceDataFromSheet ((c0 :: d :: hrest) :: rows)).attendanceData))
      from rfl, hrec]
  have hcol : findIdxOpt (fun header => jsEq header d) (c0 :: d :: hrest) =
      some 1 := by
    simp [findIdxOpt, hne]
  have hpair : ∀ (i j : Nat) (hi : i < ((c0 :: d :: hrest) :: rows).length)
      (hj : j < ((c0 :: d :: hrest) :: rows).length), i < j →
      optJsEq (((c0 :: d :: hrest) :: rows)[i][0]?)
        (((c0 :: d :: hrest) :: rows)[j][0]?) = false := by
    intro i j hi hj hij
    exact List.pairwise_iff_getElem.mp hdistinct i j hi hj hij
  -- each batch entry rewrites a cell to the value it already holds
  have hfix : ∀ w ∈ (rows.map (fun row =>
        (⟨row[0]?, cellIsTrue row[1]?⟩ : UpdateRecord))).filterMap
        (fun rcd => (findIdxOpt (fun row => optJsEq row[0]? rcd.name)
          ((c0 :: d :: hrest) :: rows)).map (fun rowIndex => (rowIndex, rcd.present))),
      setCell ((c0 :: d :: hrest) :: rows) w.1 1 (CellVal.bool w.2) =
        (c0 :: d :: hrest) :: rows := by
    intro w hw
    rw [List.mem_filterMap] at hw
    obtain ⟨rcd, hrcd, hwr⟩ := hw
    rw [Option.map_eq_some'] at hwr
    obtain ⟨ri, hri, hwri⟩ := hwr
    rw [List.mem_map] at hrcd
    obtain ⟨row, hrow, hfrow⟩ := hrcd
    obtain ⟨k, hk, hrk⟩ := List.getElem_of_mem hrow
    have hk1 : k + 1 < ((c0 :: d :: hrest) :: rows).length := by
      simpa using Nat.succ_lt_succ hk
    have hsk1 : ((c0 :: d :: hrest) :: rows)[k + 1] = row := by
      simpa using hrk
    obtain ⟨hlt, hhit, hmiss⟩ := findIdxOpt_spec _ _ _ hri
    have hname : rcd.name = row[0]? := by rw [← hfrow]
    have hhit' : optJsEq (((c0 :: d :: hrest) :: rows)[ri][0]?) row[0]? = true := by
      rw [← hname]; exact hhit
    have hrik : ri = k + 1 := by
      rcases Nat.lt_trichotomy ri (k + 1) with hc | hc | hc
      · exfalso
        have hcontra := hpair ri (k + 1) hlt hk1 hc
        rw [hsk1] at hcontra
        rw [hhit'] at hcontra
        exact Bool.noConfusion hcontra
      · exact hc
      · exfalso
        have hcontra := hmiss (k + 1) hc
        have hsk1' : ((c0 :: d :: hrest) :: rows).get ⟨k + 1, Nat.lt_trans hc hlt⟩ = row := by
          simpa using hrk
        rw [hsk1', ← hname, hname, optJsEq_refl] at hcontra
        exact Bool.noConfusion hcontra
    obtain ⟨b, hb⟩ := hbool row hrow
    have hpres : rcd.present = b := by
      rw [← hfrow]
      show cellIsTrue row[1]? = b
      rw [hb]
      rfl
    have hget : ((c0 :: d :: hrest) :: rows)[k + 1]? = some row := by
      rw [List.getElem?_eq_getElem hk1, hsk1]
    have hrowlen : 1 < row.length := (List.getElem?_eq_some.mp hb).1
    have hfixrow : setCellInRow row 1 (CellVal.bool b) = row := by
      unfold setCellInRow
      have h2 : 1 + 1 - row.length = 0 := by omega
      rw [h2]
      simp only [List.replicate, List.append_nil]
      exact set_getElem?_eq row 1 (CellVal.bool b) hb
    rw [← hwri, hrik, hpres]
    exact modifyAt_eq_self (k + 1) _ _ row hget hfixrow
  rw [hnoop, Option.map_some', Option.some.injEq]
  show (updateAttendanceInSheet ((c0 :: d :: hrest) :: rows) d
      (rows.map (fun row => (⟨row[0]?, cellIsTrue row[1]?⟩ : UpdateRecord)))).2 =
    (c0 :: d :: hrest) :: rows
  simp only [updateAttendanceInSheet, hcol]
  by_cases hb : ((rows.map (fun row =>
      (⟨row[0]?, cellIsTrue row[1]?⟩ : UpdateRecord))).filterMap
      (fun rcd => (findIdxOpt (fun row => optJsEq row[0]? rcd.name)
        ((c0 :: d :: hrest) :: rows)).map (fun rowIndex => (rowIndex, rcd.present)))).isEmpty
  · simp only [hb, if_true]
  · simp only [hb, Bool.false_eq_true, if_false]
    exact foldl_fixed _ _ _ hfix

/-- C3 (amended) witness: a regular sheet whose data cells are boolean
literals survives the load-then-save round trip unchanged. -/
theorem noopSave_preserves_cells_witness :
    (noopSave [[CellVal.str "Name", CellVal.str "7/20/2025"],
               [CellVal.str "Alice", CellVal.bool true],
               [CellVal.str "Bob", CellVal.bool false]]).map Prod.snd =
      some [[CellVal.str "Name", CellVal.str "7/20/2025"],
            [CellVal.str "Alice", CellVal.bool true],
            [CellVal.str "Bob", CellVal.bool false]] := by
  have h := noopSave_preserves_cells (CellVal.str "Name") (CellVal.str "7/20/2025") []
    [[CellVal.str "Alice", CellVal.bool true], [CellVal.str "Bob", CellVal.bool false]]
    (by decide) (by simp)
    (by
      intro row hrow
      simp only [List.mem_cons, List.not_mem_nil, or_false] at hrow
      rcases hrow with rfl | rfl
      · exact ⟨true, rfl⟩
      · exact ⟨false, rfl⟩)
    (by
      refine List.Pairwise.cons ?_ (List.Pairwise.cons ?_ (List.Pairwise.cons ?_ List.Pairwise.nil))
      · intro r hr
        simp only [List.mem_cons, List.not_mem_nil, or_false] at hr
        rcases hr with rfl | rfl <;> decide
      · intro r hr
        simp only [List.mem_cons, List.not_mem_nil, or_false] at hr
        rcases hr with rfl
        decide
      · intro r hr
        simp at hr)
  exact h

end ChurchAttendance
